import Mathlib

/-!
# FlowCoach verification development

Shallow embedding of the FlowCoach task-organization core
(`src/parsers/timeParser.ts`, `src/services/claudeService.ts`,
`src/services/sessionService.ts`, `src/services/todoistService.ts`,
`src/core/flowcoach.ts`) and proofs of the spec's testable properties.

JavaScript regular expressions used by the source are embedded via a small
backtracking matcher (`RE`, `matchRE`) that reproduces leftmost-match,
greedy-quantifier, left-biased-alternation semantics for exactly the
constructs the source patterns use (literals, `\d`, `\s`, `+`, `*`, `?`,
alternation, capture groups, `\b`, case-insensitive matching).
-/

namespace FlowCoach

/-- JavaScript number as produced by `parseInt`: either an integer or NaN. -/
inductive JSNum where
  | nan : JSNum
  | int : Int → JSNum
deriving DecidableEq, Repr

/-- Duration bucket (`'2min' | '10min' | '30plus'`); `null` is `Option.none`
at use sites (`DurationBucket` in `src/types/core.ts` includes `null`). -/
inductive Bucket where
  | twoMin : Bucket
  | tenMin : Bucket
  | thirtyPlus : Bucket
deriving DecidableEq, Repr

/-- String form of a bucket as it appears in JS template literals and JSON. -/
def Bucket.str : Bucket → String
  | .twoMin => "2min"
  | .tenMin => "10min"
  | .thirtyPlus => "30plus"

/-- `${duration_bucket}` in a JS template literal: `null` prints as "null". -/
def bucketTemplate : Option Bucket → String
  | none => "null"
  | some b => b.str

/-! ## Character classes and the regex AST -/

/-- Character classes appearing in the source regexes. -/
inductive CClass where
  | digit : CClass
  | space : CClass
  | alpha : CClass
deriving DecidableEq, Repr

def CClass.test : CClass → Char → Bool
  | .digit, c => c.isDigit
  | .space, c => c = ' ' || c = '\t' || c = '\n' || c = '\r'
  | .alpha, c => c.isAlpha

/-- Regex AST covering the constructs used by the source patterns.
Quantifiers are restricted to character classes, which is all the source
patterns need (`\d+`, `\s*`, `\s+`). -/
inductive RE where
  | emptyRe : RE
  | ch : Char → RE
  | cls : CClass → RE
  | many0 : CClass → RE
  | many1 : CClass → RE
  | seqRe : RE → RE → RE
  | altRe : RE → RE → RE
  | optRe : RE → RE
  | grp : Nat → RE → RE
  | wordB : RE
deriving Repr

/-- Case-insensitive character comparison (all source patterns carry `/i`). -/
def ciEq (a b : Char) : Bool := a.toLower = b.toLower

/-- JS word character for `\b`: `[A-Za-z0-9_]`. -/
def isWordChar (c : Char) : Bool :=
  (('a' ≤ c.toLower && c.toLower ≤ 'z') || c.isDigit || c = '_')

def isWordOpt : Option Char → Bool
  | none => false
  | some c => isWordChar c

def isWordHead : List Char → Bool
  | [] => false
  | c :: _ => isWordChar c

/-- All ways to let a greedy class quantifier consume a prefix, longest first.
Each element is (last char consumed (as new left context), remainder). -/
def greedySplits (p : CClass) (prev : Option Char) : List Char →
    List (Option Char × List Char)
  | [] => [(prev, [])]
  | c :: rest =>
    if p.test c then greedySplits p (some c) rest ++ [(prev, c :: rest)]
    else [(prev, c :: rest)]

/-- Captured groups, as (index, text) pairs in capture order. -/
abbrev Caps := List (Nat × String)

/-- First success over a list of alternatives. -/
def firstSome {α β : Type} (f : α → Option β) : List α → Option β
  | [] => none
  | x :: xs => match f x with
    | some r => some r
    | none => firstSome f xs

/-- CPS backtracking matcher. `prev` is the character just left of the
current position (for `\b`); the continuation receives the new left
context, the remaining input, and the captures accumulated so far.
Alternation is left-biased and quantifiers are greedy, as in JS. -/
def matchRE {ρ : Type} (re : RE) (prev : Option Char) (l : List Char)
    (k : Option Char → List Char → Caps → Option ρ) (caps : Caps) :
    Option ρ :=
  match re with
  | .emptyRe => k prev l caps
  | .ch c =>
    match l with
    | [] => none
    | x :: xs => if ciEq x c then k (some x) xs caps else none
  | .cls p =>
    match l with
    | [] => none
    | x :: xs => if p.test x then k (some x) xs caps else none
  | .many0 p => firstSome (fun pr => k pr.1 pr.2 caps) (greedySplits p prev l)
  | .many1 p =>
    match l with
    | [] => none
    | x :: xs =>
      if p.test x then
        firstSome (fun pr => k pr.1 pr.2 caps) (greedySplits p (some x) xs)
      else none
  | .seqRe a b => matchRE a prev l (fun pr l' c' => matchRE b pr l' k c') caps
  | .altRe a b =>
    match matchRE a prev l k caps with
    | some r => some r
    | none => matchRE b prev l k caps
  | .optRe a =>
    match matchRE a prev l k caps with
    | some r => some r
    | none => k prev l caps
  | .grp i a =>
    matchRE a prev l
      (fun pr l' c' =>
        k pr l' ((i, String.mk (l.take (l.length - l'.length))) :: c')) caps
  | .wordB => if isWordOpt prev != isWordHead l then k prev l caps else none

/-- Attempt to match `re` at the very start of `l` (with left context
`prev`); returns (consumed length, captures). -/
def matchHere (re : RE) (prev : Option Char) (l : List Char) :
    Option (Nat × Caps) :=
  matchRE re prev l (fun _ l' c' => some (l.length - l'.length, c')) []

/-- Leftmost match of `re` in `l`, scanning start positions left to right.
Returns (start index, length, captures), like `String.prototype.match`. -/
def searchFrom (re : RE) (prev : Option Char) (l : List Char) (pos : Nat) :
    Option (Nat × Nat × Caps) :=
  match matchHere re prev l with
  | some (len, caps) => some (pos, len, caps)
  | none =>
    match l with
    | [] => none
    | c :: rest => searchFrom re (some c) rest (pos + 1)

def search (re : RE) (s : String) : Option (Nat × Nat × Caps) :=
  searchFrom re none s.data 0

/-- `match[i]` of a JS match result: text of capture group `i`
(group 0 is the whole match). Missing group yields `""` (the source only
reads groups that participated in the match). -/
def capGet (caps : Caps) (i : Nat) : String :=
  match caps.find? (fun p => p.1 = i) with
  | some p => p.2
  | none => ""

/-- Whole-match text for a search result on `s`. -/
def matchedText (s : String) (st len : Nat) : String :=
  String.mk ((s.data.drop st).take len)

/-- `String.prototype.replace(re, '')` with a non-global regex: remove the
leftmost match span only. -/
def replaceFirst (re : RE) (s : String) : String :=
  match search re s with
  | none => s
  | some (st, len, _) => String.mk (s.data.take st ++ s.data.drop (st + len))

def digitsToNat (ds : List Char) : Nat :=
  ds.foldl (fun a c => a * 10 + (c.toNat - '0'.toNat)) 0

/-- JS `String.prototype.trim` (whitespace as in `CClass.space`). -/
def trimJS (s : String) : String :=
  String.mk (((s.data.dropWhile CClass.space.test).reverse.dropWhile
    CClass.space.test).reverse)

/-- Lower-casing, character by character. -/
def strLower (s : String) : String :=
  String.mk (s.data.map Char.toLower)

/-- JS `s.split(sep)` for a single-character separator. -/
def splitCharList (sep : Char) : List Char → List (List Char)
  | [] => [[]]
  | c :: rest =>
    let r := splitCharList sep rest
    if c = sep then [] :: r
    else
      match r with
      | h :: t => (c :: h) :: t
      | [] => [[c]]

def splitChar (sep : Char) (s : String) : List String :=
  (splitCharList sep s.data).map String.mk

/-- Regex for a literal string: sequence of case-insensitive characters. -/
def reStr (s : String) : RE :=
  s.data.foldr (fun c acc => .seqRe (.ch c) acc) .emptyRe

/-- JS alternation `(a|b|c)`: left-biased. -/
def reAlts : List RE → RE
  | [] => .emptyRe
  | [r] => r
  | r :: rest => .altRe r (reAlts rest)

def reSeqs : List RE → RE
  | [] => .emptyRe
  | [r] => r
  | r :: rest => .seqRe r (reSeqs rest)

/-- `parseInt` on a capture: leading digits (the source only applies it to
all-digit or all-letter captures), NaN when there is no leading digit. -/
def parseIntJS (s : String) : JSNum :=
  match s.data.takeWhile Char.isDigit with
  | [] => .nan
  | ds => .int (digitsToNat ds)

/-! ## TimeExpressionParser (`src/parsers/timeParser.ts`) -/

/-- `(m|mins?|minutes?|min)` from the minute patterns. -/
def minUnit : RE :=
  reAlts [reStr "m",
          .seqRe (reStr "min") (.optRe (.ch 's')),
          .seqRe (reStr "minute") (.optRe (.ch 's')),
          reStr "min"]

/-- `(m|mins?|minutes?|min|minuts?)` from the bare-minute pattern. -/
def minUnitTypo : RE :=
  reAlts [reStr "m",
          .seqRe (reStr "min") (.optRe (.ch 's')),
          .seqRe (reStr "minute") (.optRe (.ch 's')),
          reStr "min",
          .seqRe (reStr "minut") (.optRe (.ch 's'))]

/-- `(hour|hr|hrs?)` from the fixed-idiom patterns. -/
def hourUnitFixed : RE :=
  reAlts [reStr "hour", reStr "hr", .seqRe (reStr "hr") (.optRe (.ch 's'))]

/-- `(h|hr|hrs?|hour|hours?)` from the hours pattern. -/
def hourUnit : RE :=
  reAlts [reStr "h", reStr "hr", .seqRe (reStr "hr") (.optRe (.ch 's')),
          reStr "hour", .seqRe (reStr "hour") (.optRe (.ch 's'))]

inductive Handler where
  | minutes : Handler
  | hours : Handler
  | range : Handler
  | fixed : Nat → Handler
deriving DecidableEq, Repr

/-- `TIME_PATTERNS`, in source order; each regex transcribed from the
corresponding `/.../i` literal. -/
def TIME_PATTERNS : List (RE × Handler) :=
  [ -- /(\d+)\s*[-–]\s*(\d+)\s*(m|mins?|minutes?|min)\b/i
    (reSeqs [.grp 1 (.many1 .digit), .many0 .space,
             .altRe (.ch '-') (.ch '–'), .many0 .space,
             .grp 2 (.many1 .digit), .many0 .space,
             .grp 3 minUnit, .wordB], .range),
    -- /(half|hlf)\s*(hour|hr|hrs?)/i
    (reSeqs [.grp 1 (.altRe (reStr "half") (reStr "hlf")), .many0 .space,
             .grp 2 hourUnitFixed], .fixed 30),
    -- /(quarter|1\/4)\s*(hour|hr|hrs?)/i
    (reSeqs [.grp 1 (.altRe (reStr "quarter") (reStr "1/4")), .many0 .space,
             .grp 2 hourUnitFixed], .fixed 15),
    -- /(\d+)\s*(h|hr|hrs?|hour|hours?)\b/i
    (reSeqs [.grp 1 (.many1 .digit), .many0 .space,
             .grp 2 hourUnit, .wordB], .hours),
    -- /~?(about|abt|around)\s+(\d+)\s*(m|mins?|minutes?|min)\b/i
    (reSeqs [.optRe (.ch '~'),
             .grp 1 (reAlts [reStr "about", reStr "abt", reStr "around"]),
             .many1 .space, .grp 2 (.many1 .digit), .many0 .space,
             .grp 3 minUnit, .wordB], .minutes),
    -- /(roughly|rughly|aprox|approx)\s+(\d+)\s*(m|mins?|minutes?|min)\b/i
    (reSeqs [.grp 1 (reAlts [reStr "roughly", reStr "rughly",
                             reStr "aprox", reStr "approx"]),
             .many1 .space, .grp 2 (.many1 .digit), .many0 .space,
             .grp 3 minUnit, .wordB], .minutes),
    -- /(\d+)\s*(m|mins?|minutes?|min|minuts?)\b/i
    (reSeqs [.grp 1 (.many1 .digit), .many0 .space,
             .grp 2 minUnitTypo, .wordB], .minutes),
    -- /(\d+)(m|min)\b/i
    (reSeqs [.grp 1 (.many1 .digit),
             .grp 2 (.altRe (reStr "m") (reStr "min")), .wordB], .minutes) ]

/-- `QUICK_ACTION_VERBS` (typo variants included), verbatim. -/
def QUICK_ACTION_VERBS : List String :=
  ["email", "emal", "emial", "mail",
   "call", "cal", "phone",
   "ping", "pign",
   "text", "txt", "msg",
   "dm", "d.m",
   "reply", "repli", "respond",
   "send", "snd", "sent",
   "file", "fil", "save",
   "pay", "pal", "payment",
   "log", "record",
   "check", "chek", "chck", "verify",
   "review", "reveiw", "reviw", "rev",
   "update", "updat", "updte"]

/-- JS `<=` against a number literal; `NaN <= x` is false. -/
def jsLe (a : JSNum) (b : Int) : Bool :=
  match a with
  | .nan => false
  | .int n => n ≤ b

def jsNumStr : JSNum → String
  | .nan => "NaN"
  | .int n => toString n

structure TimeParseResult where
  explicit_minutes : Option JSNum
  duration_bucket : Option Bucket
  cleaned_text : String
  matched_expression : String
deriving DecidableEq, Repr

/-- `getDurationBucket` from `timeParser.ts`. -/
def getDurationBucket (minutes : Option JSNum) (text : String) :
    Option Bucket :=
  match minutes with
  | some m =>
    if jsLe m 5 then some .twoMin
    else if jsLe m 15 then some .tenMin
    else some .thirtyPlus
  | none =>
    let firstWord := strLower ((splitChar ' ' text).headD "")
    if QUICK_ACTION_VERBS.contains firstWord then some .tenMin else none

/-- The trailing-dash cleanup `cleaned.replace(/\s*[-–]\s*$/, '')`:
drop one trailing dash together with the whitespace around it (the `.trim()`
that always follows in the source makes dropping the pre-dash whitespace
here equivalent to the regex replacement). -/
def stripTrailingDash (s : String) : String :=
  let r := s.data.reverse.dropWhile (fun c => CClass.space.test c)
  match r with
  | c :: rest =>
    if c = '-' || c = '–' then String.mk rest.reverse else s
  | [] => s

/-- First pattern of `TIME_PATTERNS` that matches, with its search result. -/
def findTimePattern (text : String) :
    Option (RE × Handler × Nat × Nat × Caps) :=
  match TIME_PATTERNS.find? (fun p => (search p.1 text).isSome) with
  | none => none
  | some p =>
    match search p.1 text with
    | some (st, len, caps) => some (p.1, p.2, st, len, caps)
    | none => none

/-- `parseTime` from `timeParser.ts`: try each pattern in order, first match
wins; compute minutes per handler; strip the matched span (plus a dangling
trailing dash) from the text; derive the duration bucket. -/
def parseTime (text : String) : TimeParseResult :=
  match findTimePattern text with
  | none =>
    { explicit_minutes := none
      duration_bucket := getDurationBucket none text
      cleaned_text := text
      matched_expression := "" }
  | some (re, h, st, len, caps) =>
    let whole := matchedText text st len
    let (minutes, matched) :=
      match h with
      | .minutes => (parseIntJS (capGet caps 1), whole)
      | .hours =>
        (match parseIntJS (capGet caps 1) with
         | .nan => JSNum.nan
         | .int n => JSNum.int (n * 60), whole)
      | .range =>
        let lower := parseIntJS (capGet caps 1)
        let upper := parseIntJS (capGet caps 2)
        (upper, jsNumStr lower ++ "-" ++ jsNumStr upper ++ " minutes")
      | .fixed n => (JSNum.int n, whole)
    let cleaned1 := trimJS (replaceFirst re text)
    let cleaned2 := trimJS (stripTrailingDash cleaned1)
    { explicit_minutes := some minutes
      duration_bucket := getDurationBucket (some minutes) cleaned2
      cleaned_text := cleaned2
      matched_expression := matched }

/-- `s.replace(/^.../, '')` for an anchored regex: match at position 0
only, remove the matched prefix. -/
def replaceStart (re : RE) (s : String) : String :=
  match matchHere re none s.data with
  | none => s
  | some (len, _) => String.mk (s.data.drop len)

/-- The list-marker and meta-request prefix regexes of `cleanTaskTitle`,
in application order. The first three source regexes are case-sensitive but
contain only symbols, digits or the full letter class, so the
case-insensitive matcher coincides with them; the remaining five carry `/i`. -/
def cleanTitleRes : List RE :=
  [ -- /^\s*\d+[\.\)]\s*/
    reSeqs [.many0 .space, .many1 .digit, .altRe (.ch '.') (.ch ')'),
            .many0 .space],
    -- /^\s*[-•*]\s*/
    reSeqs [.many0 .space, reAlts [.ch '-', .ch '•', .ch '*'], .many0 .space],
    -- /^\s*[a-zA-Z]\.\s*/
    reSeqs [.many0 .space, .cls .alpha, .ch '.', .many0 .space],
    -- /^(create\s+a\s+task\s+to\s+)/i
    reSeqs [reStr "create", .many1 .space, reStr "a", .many1 .space,
            reStr "task", .many1 .space, reStr "to", .many1 .space],
    -- /^(add\s+task\s+to\s+)/i
    reSeqs [reStr "add", .many1 .space, reStr "task", .many1 .space,
            reStr "to", .many1 .space],
    -- /^(remind\s+me\s+to\s+)/i
    reSeqs [reStr "remind", .many1 .space, reStr "me", .many1 .space,
            reStr "to", .many1 .space],
    -- /^(need\s+to\s+)/i
    reSeqs [reStr "need", .many1 .space, reStr "to", .many1 .space],
    -- /^(i\s+need\s+to\s+)/i
    reSeqs [reStr "i", .many1 .space, reStr "need", .many1 .space,
            reStr "to", .many1 .space] ]

/-- `cleanTaskTitle` from `timeParser.ts`: strip list markers, then each
meta-request prefix in order, then trim. -/
def cleanTaskTitle (text : String) : String :=
  trimJS (cleanTitleRes.foldl (fun s re => replaceStart re s) text)

/-! ## LineSplitter (`ClaudeService.extractCandidateLines` /
`ClaudeService.smartCommaSplit`) -/

/-- Prefix test on character lists. -/
def startsWithList : List Char → List Char → Bool
  | [], _ => true
  | _ :: _, [] => false
  | a :: as, b :: bs => a = b && startsWithList as bs

/-- `String.prototype.includes` (case-sensitive substring test). -/
def containsSub (pat : String) (s : String) : Bool :=
  go pat.data s.data
where
  go (p : List Char) : List Char → Bool
    | [] => startsWithList p []
    | c :: rest => startsWithList p (c :: rest) || go p rest

/-- Count the non-overlapping leftmost matches of `re` (a global `match`),
scanning left to right. `fuel` bounds the recursion (input length + 1
suffices since every step consumes at least one character). -/
def gCountAux (re : RE) : Nat → Option Char → List Char → Nat
  | 0, _, _ => 0
  | f + 1, prev, l =>
    match matchHere re prev l with
    | some (len, _) =>
      if len = 0 then
        match l with
        | [] => 1
        | c :: rest => 1 + gCountAux re f (some c) rest
      else 1 + gCountAux re f ((l.take len).getLast?) (l.drop len)
    | none =>
      match l with
      | [] => 0
      | c :: rest => gCountAux re f (some c) rest

/-- `(s.match(re_global) || []).length`. -/
def gCount (re : RE) (s : String) : Nat :=
  gCountAux re (s.data.length + 1) none s.data

/-- `String.prototype.split(re)` for a regex without capture groups:
segments between non-overlapping leftmost matches. -/
def splitByCore (re : RE) : Nat → Option Char → List Char → List Char →
    List String
  | 0, _, l, acc => [String.mk (acc.reverse ++ l)]
  | f + 1, prev, l, acc =>
    match matchHere re prev l with
    | some (len, _) =>
      if len = 0 then
        match l with
        | [] => [String.mk acc.reverse]
        | c :: rest => splitByCore re f (some c) rest (c :: acc)
      else
        String.mk acc.reverse ::
          splitByCore re f ((l.take len).getLast?) (l.drop len) []
    | none =>
      match l with
      | [] => [String.mk acc.reverse]
      | c :: rest => splitByCore re f (some c) rest (c :: acc)

def splitByRE (re : RE) (s : String) : List String :=
  splitByCore re (s.data.length + 1) none s.data []

/-- `/\d+\s*(m|mins?|minutes?|h|hours?)\b/i` — the time-expression test used
both to gate the smart comma split and inside it. -/
def timeExprRE : RE :=
  reSeqs [.many1 .digit, .many0 .space,
          .grp 1 (reAlts [reStr "m",
                          .seqRe (reStr "min") (.optRe (.ch 's')),
                          .seqRe (reStr "minute") (.optRe (.ch 's')),
                          reStr "h",
                          .seqRe (reStr "hour") (.optRe (.ch 's'))]),
          .wordB]

/-- `/^(email|call|review|send|update|create|check|plan|draft|write|schedule|contact|ping|text|dm|file|pay)/i`
— the new-task verb test of `smartCommaSplit` (note: its own list, distinct
from `QUICK_ACTION_VERBS`, and not followed by a word boundary). -/
def smartVerbRE : RE :=
  reAlts [reStr "email", reStr "call", reStr "review", reStr "send",
          reStr "update", reStr "create", reStr "check", reStr "plan",
          reStr "draft", reStr "write", reStr "schedule", reStr "contact",
          reStr "ping", reStr "text", reStr "dm", reStr "file", reStr "pay"]

/-- One step of `smartCommaSplit`: whether this comma fragment starts a new
task (contains a time expression or starts with a recognized verb). -/
def smartNewTask (part : String) : Bool :=
  (search timeExprRE part).isSome || (matchHere smartVerbRE none part.data).isSome

/-- The accumulation loop of `smartCommaSplit`. -/
def smartLoop : List String → String → List String
  | [], cur => if cur ≠ "" then [cur] else []
  | p :: rest, cur =>
    if smartNewTask p && cur ≠ "" then cur :: smartLoop rest p
    else smartLoop rest (if cur = "" then p else cur ++ ", " ++ p)

/-- `ClaudeService.smartCommaSplit`: split on commas, re-merging fragments
that neither contain a time expression nor start with a recognized verb. -/
def smartCommaSplit (text : String) : List String :=
  smartLoop ((splitChar ',' text).map trimJS) ""

/-- `/\d+\)/` from the numbered-list branch. -/
def numberedRE : RE := .seqRe (.many1 .digit) (.ch ')')

/-- `/\s*•\s*/` from the bullet branch. -/
def bulletRE : RE := reSeqs [.many0 .space, .ch '•', .many0 .space]

/-- `ClaudeService.extractCandidateLines`: newline split first; for a single
line try numbered markers, then bullets, then the comma / multiple-time-
expression heuristic; finally keep lines longer than 2 characters.
(Splitting on single newlines and dropping empties coincides with the
source's split on `/\n+/`.) -/
def extractCandidateLines (text : String) : List String :=
  let lines := ((splitChar '\n' text).map trimJS).filter (fun l => l ≠ "")
  let lines :=
    if lines.length = 1 then
      let s := lines.headD ""
      if gCount numberedRE s > 1 then
        (((splitByRE numberedRE s).drop 1).map trimJS).filter (fun l => l ≠ "")
      else if containsSub " • " s then
        (splitByRE bulletRE s).drop 1
      else if gCount timeExprRE s > 1 || (s.data.count ',') ≥ 1 then
        smartCommaSplit s
      else lines
    else lines
  lines.filter (fun l => l.length > 2)

/-! ## Task records and the Classifier (`ClaudeService.parseAndClassify`) -/

/-- Flat task record (the fields of `ParsedTask` in `src/types/core.ts`
minus `subtasks`). `explicit_minutes` is a JS number (possibly NaN) or
undefined; `duration_bucket` `none` is the TS `null`. -/
structure TaskRec where
  raw : String
  title : String
  explicit_minutes : Option JSNum
  duration_bucket : Option Bucket
  is_project_candidate : Bool
deriving DecidableEq, Repr

/-- `ParsedTask`. The TS type is recursive in `subtasks`, but every
operation in the system reads at most one level of nesting (breakdown is
one level deep by design), so subtasks are modelled as flat records. -/
structure ParsedTask extends TaskRec where
  subtasks : Option (List TaskRec) := none
deriving DecidableEq, Repr

/-- An element of a parsed Claude classification payload. Fields are
optional because the JSON is unvalidated; payload subtasks are omitted:
the pipeline only ever copies them, never reads them. -/
structure ClaudeTask where
  raw : Option String
  title : Option String
  explicit_minutes : Option JSNum
  duration_bucket : Option Bucket
  is_project_candidate : Bool
deriving DecidableEq, Repr

/-- JS `a || b` for an optional string: undefined and `""` are falsy. -/
def jsOrStr (a : Option String) (b : String) : String :=
  match a with
  | none => b
  | some s => if s = "" then b else s

/-- One preprocessed line of `parseAndClassify`: deterministic time parse
plus title cleanup, `is_project_candidate` initialised to false. (The JS
object also carries an informational `time_extracted` field that nothing
downstream reads; it is omitted.) -/
def preprocessLine (line : String) : ParsedTask :=
  let tr := parseTime line
  { raw := line
    title := cleanTaskTitle tr.cleaned_text
    explicit_minutes := tr.explicit_minutes
    duration_bucket := tr.duration_bucket
    is_project_candidate := false
    subtasks := none }

def preprocessInput (text : String) : List ParsedTask :=
  (extractCandidateLines text).map preprocessLine

/-- Outcome of the external text-understanding call as seen at the
`JSON.parse` boundary. `throws` is a rejected `messages.create` (network
error, timeout) — note this happens outside the source's try/catch;
`nonParse` is a response that is not a parseable JSON array (or non-text
content), which throws inside the try/catch. -/
inductive ClaudeOutcome where
  | throws : ClaudeOutcome
  | nonParse : ClaudeOutcome
  | ok : List ClaudeTask → ClaudeOutcome

/-- The deterministic fallback of `parseAndClassify`:
`is_project_candidate = (duration_bucket === '30plus')` over the
preprocessed tasks. -/
def fallbackClassify (pre : List ParsedTask) : List ParsedTask :=
  pre.map (fun t =>
    { t with is_project_candidate := t.duration_bucket = some .thirtyPlus })

/-- The `fixed`-map plus `validateParsedTasks` of `parseAndClassify`:
index-wise merge of the Claude payload with the preprocessed tasks, keeping
the deterministic time fields; a payload element beyond the preprocessed
length passes through `validateParsedTasks` unmerged. -/
def fixedAndValidate (pre : List ParsedTask) (resp : List ClaudeTask) :
    List ParsedTask :=
  resp.mapIdx (fun idx ct =>
    match pre[idx]? with
    | some o =>
      { raw := o.raw
        title := jsOrStr ct.title o.title
        explicit_minutes := o.explicit_minutes
        duration_bucket := o.duration_bucket
        is_project_candidate := ct.is_project_candidate || o.is_project_candidate
        subtasks := none }
    | none =>
      { raw := jsOrStr ct.raw ""
        title := jsOrStr ct.title ""
        explicit_minutes := ct.explicit_minutes
        duration_bucket := ct.duration_bucket
        is_project_candidate := ct.is_project_candidate
        subtasks := none })

/-- The classification stage of `parseAndClassify`, after preprocessing:
a thrown service call propagates (`Except.error`); an unparseable payload
falls back; a parsed array is merged index-wise. -/
def classifyStep (pre : List ParsedTask) (outcome : ClaudeOutcome) :
    Except Unit (List ParsedTask) :=
  match outcome with
  | .throws => .error ()
  | .nonParse => .ok (fallbackClassify pre)
  | .ok resp => .ok (fixedAndValidate pre resp)

/-- `ClaudeService.parseAndClassify`. -/
def parseAndClassify (text : String) (outcome : ClaudeOutcome) :
    Except Unit (List ParsedTask) :=
  classifyStep (preprocessInput text) outcome

/-! ## SessionService / IdempotencyLedger (`src/services/sessionService.ts`) -/

inductive Status where
  | pending : Status
  | accepted : Status
  | pushed : Status
  | discarded : Status
deriving DecidableEq, Repr

/-- A row of the `sessions` table (`parsed_json` decoded). -/
structure SessionRow where
  id : String
  userId : String
  inputText : String
  parsed : List ParsedTask
  status : Status
  createdTaskIds : Option (List String)
  createdAt : Nat
  updatedAt : Nat
deriving DecidableEq, Repr

/-- A row of the `created_tasks` idempotency table. -/
structure LedgerRow where
  sessionId : String
  titleHash : String
  todoistId : Option String
  createdAt : Nat
deriving DecidableEq, Repr

/-- Conversation context object stored by the orchestrator (`context` is a
free-form JS object; the fields the orchestrator actually writes/reads). -/
structure Ctx where
  duration_bucket : Option Bucket := none
  explicit_minutes : Option JSNum := none
  justUpdatedTask : Bool := false
deriving DecidableEq, Repr

/-- A `thread_state` row (`ThreadState` in `src/types/threadState.ts`);
intent/topic enums are modelled as strings. -/
structure ThreadState where
  userId : String
  channelId : String
  lastIntent : Option String
  lastCreatedTaskId : Option String
  lastSessionId : Option String
  lastTaskTitle : Option String
  lastTopic : Option String
  context : Option Ctx
  updatedAt : Nat
deriving DecidableEq, Repr

/-- Persistent state owned by the core: the `sessions` and `created_tasks`
tables plus the `ThreadStateService` in-process cache and `thread_state`
table. -/
structure St where
  sessions : List SessionRow
  ledger : List LedgerRow
  tsCache : List (String × ThreadState)
  tsDb : List ThreadState
deriving DecidableEq, Repr

/-- `generateTaskHash`: md5 of `${sessionId}:${task.title}:${task.duration_bucket}`.
The digest is modelled by its preimage (md5 treated as injective); a TS
`null` bucket stringifies as "null". -/
def generateTaskHash (task : ParsedTask) (sessionId : String) : String :=
  sessionId ++ ":" ++ task.title ++ ":" ++ bucketTemplate task.duration_bucket

/-- `SessionService.createSession`: always inserts a fresh PENDING row.
`newId` stands for `generateSessionId()` (timestamp + random bytes). -/
def createSession (now : Nat) (newId : String) (st : St)
    (userId inputText : String) (parsed : List ParsedTask) :
    St × SessionRow :=
  let row : SessionRow :=
    { id := newId, userId := userId, inputText := inputText, parsed := parsed
      status := .pending, createdTaskIds := none
      createdAt := now, updatedAt := now }
  ({ st with sessions := row :: st.sessions }, row)

/-- `SessionService.updateSession`: sets status, `created_task_ids`
(to NULL when the argument is omitted) and `updated_at` on the row with the
given id. -/
def updateSession (now : Nat) (st : St) (sessionId : String)
    (status : Status) (createdTaskIds : Option (List String)) : St :=
  { st with sessions := st.sessions.map (fun r =>
      if r.id = sessionId then
        { r with status := status, createdTaskIds := createdTaskIds
                 updatedAt := now }
      else r) }

/-- `SessionService.getSession`. -/
def getSession (st : St) (sessionId : String) : Option SessionRow :=
  st.sessions.find? (fun r => r.id = sessionId)

/-- `SessionService.getLastPendingSession`: the most recently updated
PENDING row of the user. -/
def getLastPendingSession (st : St) (userId : String) : Option SessionRow :=
  (st.sessions.filter (fun r =>
      decide (r.userId = userId ∧ r.status = .pending))).foldl
    (fun acc r =>
      match acc with
      | none => some r
      | some b => if r.updatedAt > b.updatedAt then some r else some b) none

/-- `SessionService.isTaskAlreadyCreated`. -/
def isTaskAlreadyCreated (st : St) (sessionId : String) (task : ParsedTask) :
    Bool :=
  st.ledger.any (fun r =>
    decide (r.sessionId = sessionId ∧
            r.titleHash = generateTaskHash task sessionId))

/-- `SessionService.recordTaskCreated`: `INSERT OR REPLACE` keyed by
`(session_id, title_hash)`. -/
def recordTaskCreated (now : Nat) (st : St) (sessionId : String)
    (task : ParsedTask) (todoistId : Option String) : St :=
  let h := generateTaskHash task sessionId
  { st with ledger :=
      { sessionId := sessionId, titleHash := h, todoistId := todoistId
        createdAt := now } ::
      st.ledger.filter (fun r =>
        !(decide (r.sessionId = sessionId ∧ r.titleHash = h))) }

/-! ## ThreadStateService (`src/services/threadStateService.ts`) -/

def EXPIRY_MS : Nat := 30 * 60 * 1000

def getThreadKey (userId channelId : String) : String :=
  userId ++ ":" ++ channelId

def lookupTsCache (st : St) (key : String) : Option ThreadState :=
  (st.tsCache.find? (fun p => p.1 = key)).map (fun p => p.2)

def lookupTsDb (st : St) (userId channelId : String) : Option ThreadState :=
  st.tsDb.find? (fun r => decide (r.userId = userId ∧ r.channelId = channelId))

def setTsCache (st : St) (key : String) (ts : ThreadState) : St :=
  { st with tsCache :=
      (key, ts) :: st.tsCache.filter (fun p => p.1 ≠ key) }

/-- `INSERT OR REPLACE INTO thread_state` (UNIQUE on (user_id, channel_id)). -/
def setTsDb (st : St) (ts : ThreadState) : St :=
  { st with tsDb := ts :: st.tsDb.filter (fun r =>
      !(decide (r.userId = ts.userId ∧ r.channelId = ts.channelId))) }

/-- `ThreadStateService.clearThreadState`: delete from cache and table. -/
def clearThreadState (st : St) (userId channelId : String) : St :=
  { st with
      tsCache := st.tsCache.filter (fun p => p.1 ≠ getThreadKey userId channelId)
      tsDb := st.tsDb.filter (fun r =>
        !(decide (r.userId = userId ∧ r.channelId = channelId))) }

/-- `ThreadStateService.getThreadState`: cache first; an entry older than
30 minutes is treated as absent and deleted (cache and DB row) as a side
effect of the read; a fresh DB row is copied into the cache.
`Date.now() - updatedAt > EXPIRY_MS` is computed over the integers. -/
def getThreadState (now : Nat) (st : St) (userId channelId : String) :
    St × Option ThreadState :=
  let key := getThreadKey userId channelId
  match lookupTsCache st key with
  | some cached =>
    if (now : Int) - (cached.updatedAt : Int) > (EXPIRY_MS : Int) then
      (clearThreadState st userId channelId, none)
    else (st, some cached)
  | none =>
    match lookupTsDb st userId channelId with
    | some row =>
      if (now : Int) - (row.updatedAt : Int) > (EXPIRY_MS : Int) then
        (clearThreadState st userId channelId, none)
      else (setTsCache st key row, some row)
    | none => (st, none)

/-- `ThreadStateUpdate`: absent fields (`undefined`) leave the previous
value in place. -/
structure TSUpdate where
  lastIntent : Option String := none
  lastCreatedTaskId : Option String := none
  lastSessionId : Option String := none
  lastTaskTitle : Option String := none
  lastTopic : Option String := none
  context : Option Ctx := none
deriving DecidableEq, Repr

/-- `ThreadStateService.updateThreadState`: read (with expiry side
effects), merge-patch, refresh `updatedAt`, write cache and DB. -/
def updateThreadState (now : Nat) (st : St) (userId channelId : String)
    (upd : TSUpdate) : St :=
  let (st1, existing) := getThreadState now st userId channelId
  let newState : ThreadState :=
    { userId := userId, channelId := channelId
      lastIntent := upd.lastIntent <|> existing.bind (fun e => e.lastIntent)
      lastCreatedTaskId :=
        upd.lastCreatedTaskId <|> existing.bind (fun e => e.lastCreatedTaskId)
      lastSessionId :=
        upd.lastSessionId <|> existing.bind (fun e => e.lastSessionId)
      lastTaskTitle :=
        upd.lastTaskTitle <|> existing.bind (fun e => e.lastTaskTitle)
      lastTopic := upd.lastTopic <|> existing.bind (fun e => e.lastTopic)
      context := upd.context <|> existing.bind (fun e => e.context)
      updatedAt := now }
  setTsDb (setTsCache st1 (getThreadKey userId channelId) newState) newState

/-! ## TodoistService (`src/services/todoistService.ts`) -/

structure TodoistTask where
  id : String
  content : String
  parent_id : Option String := none
deriving DecidableEq, Repr

/-- Behaviour of the external task-tracking service for one call:
whether the connection test fails (`offline`), which individual task
creations succeed, and which external id a successful creation returns.
`labelMode` is the service configuration (`'labels'` is the default). -/
structure TodoistEnv where
  labelsMode : Bool := true
  offline : Bool := false
  ok : TaskRec → Bool
  extId : TaskRec → String

/-- `formatTaskContent`: `[bucket] title` in prefix mode, plain title in
label mode. -/
def formatTaskContent (labelsMode : Bool) (t : TaskRec) : String :=
  if !labelsMode && t.duration_bucket.isSome then
    "[" ++ bucketTemplate t.duration_bucket ++ "] " ++ t.title
  else t.title

/-- A successful `createSingleTask` POST result. -/
def mkTodoistTask (env : TodoistEnv) (t : TaskRec)
    (parentId : Option String) : TodoistTask :=
  { id := env.extId t, content := formatTaskContent env.labelsMode t
    parent_id := parentId }

/-- Result of `TodoistService.createTasks`; `attempted` is a model-level
trace of the individual task-creation POSTs issued, in order. -/
structure CreateResult where
  created : List TodoistTask
  failed : List TaskRec
  offline : Bool
  attempted : List TaskRec
deriving DecidableEq, Repr

/-- The per-task loop of `createTasks`: a failed parent create skips its
subtasks; a failed subtask create is recorded and the loop continues. -/
def createTasksGo (env : TodoistEnv) :
    List ParsedTask → List TodoistTask × List TaskRec × List TaskRec
  | [] => ([], [], [])
  | t :: rest =>
    let (c, f, a) := createTasksGo env rest
    if env.ok t.toTaskRec then
      let parent := mkTodoistTask env t.toTaskRec none
      let subs := t.subtasks.getD []
      let subCreated := (subs.filter (fun s => env.ok s)).map
        (fun s => mkTodoistTask env s (some parent.id))
      let subFailed := subs.filter (fun s => !env.ok s)
      (parent :: (subCreated ++ c), subFailed ++ f,
       t.toTaskRec :: (subs ++ a))
    else (c, t.toTaskRec :: f, t.toTaskRec :: a)

/-- `TodoistService.createTasks`: a failed connection test marks the call
offline and all tasks failed with no creation POSTs issued. -/
def createTasks (env : TodoistEnv) (tasks : List ParsedTask) : CreateResult :=
  if env.offline then
    { created := [], failed := tasks.map (fun t => t.toTaskRec)
      offline := true, attempted := [] }
  else
    let (c, f, a) := createTasksGo env tasks
    { created := c, failed := f, offline := false, attempted := a }

/-! ## Orchestrator (`src/core/flowcoach.ts`) -/

/-- `content.replace(/^\[[^\]]+\]\s*/, '')` in the accept matching. -/
def stripContentTag (s : String) : String :=
  match s.data with
  | '[' :: rest =>
    let inside := rest.takeWhile (fun c => c ≠ ']')
    if inside.length = 0 then s
    else
      match rest.drop inside.length with
      | ']' :: tail => String.mk (tail.dropWhile CClass.space.test)
      | _ => s
  | _ => s

inductive AcceptResp where
  | errNoSession : AcceptResp
  | allAlready : AcceptResp
  | offline : AcceptResp
  | done : Nat → List TaskRec → AcceptResp
deriving DecidableEq, Repr

/-- `FlowCoach.accept`: look the session up (by explicit id, or the user's
last PENDING session), filter out already-ledgered tasks, create the rest
externally; on a non-offline result write a ledger row for every attempted
task (matching a created external task fuzzily by content) and set the
session PUSHED with the created ids. Also returns the trace of external
creation POSTs issued by this call. -/
def accept (env : TodoistEnv) (now : Nat) (st : St) (userId : String)
    (sessionId : Option String) : St × AcceptResp × List TaskRec :=
  let sessionOpt :=
    match sessionId with
    | some sid => getSession st sid
    | none => getLastPendingSession st userId
  match sessionOpt with
  | none => (st, .errNoSession, [])
  | some session =>
    let tasksToCreate := session.parsed.filter
      (fun t => !isTaskAlreadyCreated st session.id t)
    if tasksToCreate.isEmpty then (st, .allAlready, [])
    else
      let result := createTasks env tasksToCreate
      if result.offline then
        (updateSession now st session.id .pending none, .offline,
         result.attempted)
      else
        let st1 := tasksToCreate.foldl (fun acc t =>
          let matched := result.created.find? (fun td =>
            containsSub t.title td.content ||
            containsSub (stripContentTag td.content) t.title)
          recordTaskCreated now acc session.id t
            (matched.map (fun td => td.id))) st
        let createdIds := result.created.map (fun td => td.id)
        let st2 := updateSession now st1 session.id .pushed (some createdIds)
        (st2, .done result.created.length result.failed, result.attempted)

/-- `FlowCoach.discard`: set the user's last PENDING session DISCARDED. -/
def discard (now : Nat) (st : St) (userId : String) : St × Bool :=
  match getLastPendingSession st userId with
  | none => (st, false)
  | some session => (updateSession now st session.id .discarded none, true)

/-- `/^#?(\d+)$/` of `findTaskInSession`. -/
def parseRefIndex (s : String) : Option Nat :=
  let ds := match s.data with
            | '#' :: rest => rest
            | l => l
  if ds ≠ [] && ds.all Char.isDigit then some (digitsToNat ds) else none

/-- `FlowCoach.findTaskInSession`: index reference (1-based) or
case-insensitive substring match in either direction. -/
def findTaskInSession (session : SessionRow) (taskRef : String) :
    Option ParsedTask :=
  match parseRefIndex taskRef with
  | some n => if n = 0 then none else session.parsed[n - 1]?
  | none =>
    session.parsed.find? (fun t =>
      containsSub (strLower taskRef) (strLower t.title) ||
      containsSub (strLower t.title) (strLower taskRef))

inductive BreakdownResp where
  | errNoSession : BreakdownResp
  | errNoTask : BreakdownResp
  | errFailed : BreakdownResp
  | errEmpty : BreakdownResp
  | preview : List ParsedTask → BreakdownResp
deriving DecidableEq, Repr

/-- `FlowCoach.breakdown`: find the task in the last PENDING session, ask
the external service for subtasks (`bdOutcome`; `none` models a thrown
`breakdownProject`), update the session row (status/ids/timestamp only —
`parsed_json` is not written), and return the preview list with the task
replaced by its breakdown. -/
def breakdown (bdOutcome : Option ParsedTask) (now : Nat) (st : St)
    (taskRef userId : String) : St × BreakdownResp :=
  match getLastPendingSession st userId with
  | none => (st, .errNoSession)
  | some session =>
    match findTaskInSession session taskRef with
    | none => (st, .errNoTask)
    | some task =>
      match bdOutcome with
      | none => (st, .errFailed)
      | some brokenDown =>
        if (brokenDown.subtasks.getD []).isEmpty then (st, .errEmpty)
        else
          let updatedParsed := session.parsed.map (fun t =>
            if t.title = task.title then brokenDown else t)
          let st1 := updateSession now st session.id .pending none
          (st1, .preview updatedParsed)

inductive PreviewMode where
  | off : PreviewMode
  | soft : PreviewMode
  | on : PreviewMode
deriving DecidableEq, Repr

/-- JS falsiness of `explicit_minutes` (`!t.explicit_minutes`): undefined,
NaN and 0 are falsy. -/
def jsFalsyNum : Option JSNum → Bool
  | none => true
  | some .nan => true
  | some (.int n) => n = 0

inductive OrganizeResp where
  | errCaught : OrganizeResp
  | errNoTasks : OrganizeResp
  | needsTime : SessionRow → List ParsedTask → OrganizeResp
  | preview : SessionRow → List ParsedTask → OrganizeResp
  | successAuto : String → OrganizeResp
  | errTodoist : OrganizeResp
deriving DecidableEq, Repr

/-- `FlowCoach.organize`: parse + classify (a throw from the
text-understanding call escapes `parseAndClassify` and is caught by
organize's own top-level handler, which returns an error response and
creates nothing); stage a PENDING session; ask for a time estimate if some
task has no time signal; in preview mode return the preview; in legacy
`off` mode auto-create in Todoist and record thread state. -/
def organize (pm : PreviewMode) (outcome : ClaudeOutcome)
    (env : TodoistEnv) (newId : String) (now : Nat) (st : St)
    (inputText userId channelId : String) : St × OrganizeResp :=
  match parseAndClassify inputText outcome with
  | .error _ => (st, .errCaught)
  | .ok parsed =>
    if parsed.isEmpty then (st, .errNoTasks)
    else
      let (st1, session) := createSession now newId st userId inputText parsed
      let needsTime := parsed.any (fun t =>
        jsFalsyNum t.explicit_minutes && t.duration_bucket.isNone)
      if needsTime then (st1, .needsTime session parsed)
      else if pm ≠ .off then (st1, .preview session parsed)
      else
        let result := createTasks env parsed
        match result.created, parsed with
        | firstTask :: _, p0 :: _ =>
          let st2 := updateThreadState now st1 userId channelId
            { lastIntent := some "task_created"
              lastCreatedTaskId := some firstTask.id
              lastTaskTitle := some p0.title
              context := some { duration_bucket := p0.duration_bucket
                                explicit_minutes := p0.explicit_minutes } }
          (st2, .successAuto p0.title)
        | _, _ => (st1, .errTodoist)

/-- `/(\d+)\s*(m|mins?|minutes?|h|hours?)/i` used by the time-correction
handlers (no trailing word boundary). -/
def correctionTimeRE : RE :=
  reSeqs [.grp 1 (.many1 .digit), .many0 .space,
          .grp 2 (reAlts [reStr "m",
                          .seqRe (reStr "min") (.optRe (.ch 's')),
                          .seqRe (reStr "minute") (.optRe (.ch 's')),
                          reStr "h",
                          .seqRe (reStr "hour") (.optRe (.ch 's'))])]

/-- Minutes extracted by the time-correction handlers: `parseInt(match[1])`,
times 60 when the unit group starts with `h`. -/
def parseCorrectionMinutes (timeText : String) : Option Int :=
  match search correctionTimeRE timeText with
  | none => none
  | some (_, _, caps) =>
    let n := match parseIntJS (capGet caps 1) with
             | .nan => (0 : Int)
             | .int n => n
    match (strLower (capGet caps 2)).data with
    | 'h' :: _ => some (n * 60)
    | _ => some n

def bucketOfMinutes (m : Int) : Bucket :=
  if m ≤ 5 then .twoMin else if m ≤ 15 then .tenMin else .thirtyPlus

/-- `FlowCoach.updateTimeEstimate`: apply a time estimate to the first task
of the last PENDING session (the in-memory task object is mutated; the
stored `parsed_json` is not), create it externally, and on success set the
session ACCEPTED and record thread state. -/
def updateTimeEstimate (env : TodoistEnv) (now : Nat) (st : St)
    (timeText userId channelId : String) : St × Bool :=
  match getLastPendingSession st userId with
  | none => (st, false)
  | some session =>
    match session.parsed with
    | [] => (st, false)
    | p0 :: _ =>
      match parseCorrectionMinutes timeText with
      | none => (st, false)
      | some minutes =>
        let bucket := bucketOfMinutes minutes
        let task : ParsedTask :=
          { p0 with explicit_minutes := some (.int minutes)
                    duration_bucket := some bucket
                    is_project_candidate := bucket = .thirtyPlus }
        let result := createTasks env [task]
        match result.created with
        | firstTask :: _ =>
          let taskIds := result.created.map (fun td => td.id)
          let st1 := updateSession now st session.id .accepted (some taskIds)
          let st2 := updateThreadState now st1 userId channelId
            { lastIntent := some "task_created"
              lastCreatedTaskId := some firstTask.id
              lastTaskTitle := some task.title
              context := some { duration_bucket := task.duration_bucket
                                explicit_minutes := task.explicit_minutes } }
          (st2, true)
        | [] => (st, false)

/-- `FlowCoach.updateLastTaskTime`: correct the duration of the task most
recently created in this conversation; touches Todoist and the thread
state only — never the session store. `updOk` models the external
`updateTask` call succeeding. -/
def updateLastTaskTime (updOk : Bool) (now : Nat) (st : St)
    (timeText userId channelId : String) : St × Bool :=
  let (st1, tsOpt) := getThreadState now st userId channelId
  match tsOpt with
  | none => (st1, false)
  | some ts =>
    if ts.lastIntent ≠ some "task_created" || ts.lastCreatedTaskId.isNone then
      (st1, false)
    else
      match parseCorrectionMinutes timeText with
      | none => (st1, false)
      | some minutes =>
        if updOk then
          let newBucket := bucketOfMinutes minutes
          let st2 := updateThreadState now st1 userId channelId
            { lastIntent := some "task_updated"
              context := some { duration_bucket := some newBucket
                                explicit_minutes := some (.int minutes)
                                justUpdatedTask := true } }
          (st2, true)
        else (st1, false)

/-! ## Concrete fixtures used by witnesses and counterexamples -/

def taskA : ParsedTask :=
  { raw := "a", title := "a", explicit_minutes := none
    duration_bucket := some .tenMin, is_project_candidate := false }

def taskB : ParsedTask :=
  { raw := "b", title := "b", explicit_minutes := none
    duration_bucket := some .tenMin, is_project_candidate := false }

def sess1 : SessionRow :=
  { id := "s1", userId := "U", inputText := "x", parsed := [taskA, taskB]
    status := .pending, createdTaskIds := none, createdAt := 0, updatedAt := 0 }

def stT : St := { sessions := [sess1], ledger := [], tsCache := [], tsDb := [] }

/-- Task-tracking service that fails deterministically for task "b". -/
def envFailB : TodoistEnv :=
  { ok := fun t => t.title ≠ "b", extId := fun t => "X" ++ t.title }

/-- Task-tracking service for which every creation succeeds. -/
def envAll : TodoistEnv :=
  { ok := fun _ => true, extId := fun t => "X" ++ t.title }

def sessD : SessionRow := { sess1 with status := .discarded }

def stD : St := { sessions := [sessD], ledger := [], tsCache := [], tsDb := [] }

def st0 : St := { sessions := [], ledger := [], tsCache := [], tsDb := [] }

/-- One deterministic (preprocessed) task used by the C5 counterexample. -/
def preOne : List ParsedTask :=
  [{ raw := "a", title := "a", explicit_minutes := none
     duration_bucket := none, is_project_candidate := false }]

/-- A classification payload one element LONGER than the input, whose extra
element carries its own duration fields. -/
def respLong : List ClaudeTask :=
  [{ raw := none, title := some "a", explicit_minutes := none
     duration_bucket := none, is_project_candidate := false },
   { raw := none, title := some "extra", explicit_minutes := some (.int 999)
     duration_bucket := some .twoMin, is_project_candidate := false }]

/-- The entry a `getThreadState` read consults: the cached entry if
present, else the database row. -/
def threadEntry (st : St) (userId channelId : String) : Option ThreadState :=
  match lookupTsCache st (getThreadKey userId channelId) with
  | some cached => some cached
  | none => lookupTsDb st userId channelId

/-- Fields of a session row that `updateSession` never writes: everything
except status, created_task_ids, updated_at. -/
def framePres (r rPrime : SessionRow) : Prop :=
  rPrime.id = r.id ∧ rPrime.userId = r.userId ∧
  rPrime.inputText = r.inputText ∧ rPrime.parsed = r.parsed ∧
  rPrime.createdAt = r.createdAt

/-- An expired conversation-context entry used by the C9 witness. -/
def tsEnt : ThreadState :=
  { userId := "U", channelId := "DM", lastIntent := some "task_created"
    lastCreatedTaskId := some "X", lastSessionId := none
    lastTaskTitle := some "a", lastTopic := none, context := none
    updatedAt := 0 }

def stTs : St :=
  { sessions := [], ledger := [], tsCache := [("U:DM", tsEnt)]
    tsDb := [tsEnt] }

/-! ## Theorems -/

/-- C7: the deterministic time parser maps "review contracts - 30 minutes"
to minutes=30 bucket=LONG; "quick email (2m)" to minutes=2 bucket=QUICK;
"half hour deck edits" to minutes=30 bucket=LONG; "15-30 mins to clean CRM"
to minutes=30 (range upper bound) bucket=LONG; "email team" to no minutes,
bucket=SHORT (quick-verb default); "draft proposal for Smith" to no
minutes, bucket=null. -/
theorem c7_time_extraction :
    (parseTime "review contracts - 30 minutes").explicit_minutes
        = some (.int 30) ∧
    (parseTime "review contracts - 30 minutes").duration_bucket
        = some .thirtyPlus ∧
    (parseTime "quick email (2m)").explicit_minutes = some (.int 2) ∧
    (parseTime "quick email (2m)").duration_bucket = some .twoMin ∧
    (parseTime "half hour deck edits").explicit_minutes = some (.int 30) ∧
    (parseTime "half hour deck edits").duration_bucket = some .thirtyPlus ∧
    (parseTime "15-30 mins to clean CRM").explicit_minutes
        = some (.int 30) ∧
    (parseTime "15-30 mins to clean CRM").duration_bucket
        = some .thirtyPlus ∧
    (parseTime "email team").explicit_minutes = none ∧
    (parseTime "email team").duration_bucket = some .tenMin ∧
    (parseTime "draft proposal for Smith").explicit_minutes = none ∧
    (parseTime "draft proposal for Smith").duration_bucket = none := by
  decide

/-- C8 counterexample: the smart comma split does NOT keep
"email Aaron about invoice, 2 mins" as one candidate line — the fragment
"2 mins" contains a time expression, which by the split's own rule starts a
new task, so the input yields two candidate lines. -/
theorem c8_counterexample :
    extractCandidateLines "email Aaron about invoice, 2 mins"
        = ["email Aaron about invoice", "2 mins"] ∧
    (extractCandidateLines "email Aaron about invoice, 2 mins").length ≠ 1 := by
  decide

/-- C8 amended: in the smart comma split, a comma fragment is re-merged
into the previous task exactly when it neither starts with a recognized
quick-action verb nor contains a time expression; consequently
"email Aaron about invoice, 2 mins" is broken into the two candidate lines
"email Aaron about invoice" and "2 mins" (the second fragment contains a
time expression). -/
theorem c8_amended (part cur : String) (rest : List String)
    (hcur : cur ≠ "") :
    (smartNewTask part = false →
      smartLoop (part :: rest) cur = smartLoop rest (cur ++ ", " ++ part)) ∧
    (smartNewTask part = true →
      smartLoop (part :: rest) cur = cur :: smartLoop rest part) ∧
    extractCandidateLines "email Aaron about invoice, 2 mins"
        = ["email Aaron about invoice", "2 mins"] := by
  refine ⟨fun h => ?_, fun h => ?_, by decide⟩
  · simp [smartLoop, h, hcur]
  · simp [smartLoop, h, hcur]

/-- Witness for C8 amended at the fragment "2 mins" following the task
"email Aaron about invoice". -/
theorem c8_amended_witness :
    (smartNewTask "2 mins" = true →
      smartLoop ["2 mins"] "email Aaron about invoice"
        = "email Aaron about invoice" :: smartLoop [] "2 mins") ∧
    smartNewTask "2 mins" = true := by
  refine ⟨(c8_amended "2 mins" "email Aaron about invoice" [] (by decide)).2.1,
    by decide⟩

/-- C2 counterexample: when the text-understanding call itself throws
(network error, timeout) the failure DOES raise past the Classifier
boundary — the call sits outside the `try`/`catch` of `parseAndClassify` —
and `organize` answers with its top-level error response, carrying no task
list at all, instead of the deterministic fallback. -/
theorem c2_counterexample :
    parseAndClassify "email team" ClaudeOutcome.throws = .error () ∧
    organize .soft .throws envAll "fc_1" 0 st0 "email team" "U" "DM"
        = (st0, .errCaught) := by
  exact ⟨rfl, rfl⟩

/-- C2 amended: if the text-understanding call returns an unparseable
payload (it did not throw), classification falls back to the deterministic
result and `organize` stages a PENDING session holding exactly the
deterministic task list, which is non-empty whenever deterministic parsing
found at least one candidate line, with `is_project_candidate` set exactly
when the bucket is `'30plus'`; the response (needs-time or preview)
carries that list. A thrown call, by contrast, escapes the Classifier
(see the counterexample). -/
theorem c2_amended (pm : PreviewMode) (env : TodoistEnv) (newId : String)
    (now : Nat) (st : St) (text u ch : String)
    (hpm : pm ≠ .off) (hne : preprocessInput text ≠ []) :
    parseAndClassify text .nonParse
        = .ok (fallbackClassify (preprocessInput text)) ∧
    fallbackClassify (preprocessInput text) ≠ [] ∧
    (∀ t ∈ fallbackClassify (preprocessInput text),
        t.is_project_candidate = decide (t.duration_bucket = some .thirtyPlus)) ∧
    (organize pm .nonParse env newId now st text u ch).1
        = { st with sessions :=
              { id := newId, userId := u, inputText := text
                parsed := fallbackClassify (preprocessInput text)
                status := .pending, createdTaskIds := none
                createdAt := now, updatedAt := now } :: st.sessions } ∧
    ((organize pm .nonParse env newId now st text u ch).2
        = .needsTime
            { id := newId, userId := u, inputText := text
              parsed := fallbackClassify (preprocessInput text)
              status := .pending, createdTaskIds := none
              createdAt := now, updatedAt := now }
            (fallbackClassify (preprocessInput text)) ∨
     (organize pm .nonParse env newId now st text u ch).2
        = .preview
            { id := newId, userId := u, inputText := text
              parsed := fallbackClassify (preprocessInput text)
              status := .pending, createdTaskIds := none
              createdAt := now, updatedAt := now }
            (fallbackClassify (preprocessInput text))) := by
  have hfe : fallbackClassify (preprocessInput text) ≠ [] := by
    simp only [fallbackClassify, ne_eq, List.map_eq_nil_iff]
    exact hne
  have hie : (fallbackClassify (preprocessInput text)).isEmpty = false := by
    simpa [List.isEmpty_iff] using hfe
  refine ⟨rfl, hfe, ?_, ?_, ?_⟩
  · intro t ht
    simp only [fallbackClassify, List.mem_map] at ht
    obtain ⟨p, _, rfl⟩ := ht
    rfl
  · simp only [organize, parseAndClassify, classifyStep, createSession, hie,
      Bool.false_eq_true, if_false]
    split <;> simp [hpm]
  · simp only [organize, parseAndClassify, classifyStep, createSession, hie,
      Bool.false_eq_true, if_false]
    split
    · exact Or.inl rfl
    · simp [hpm]

/-- C2 amended, witnessed at input "email team" in default (soft) preview
mode. -/
theorem c2_amended_witness :
    PreviewMode.soft ≠ PreviewMode.off ∧
    preprocessInput "email team" ≠ [] ∧
    fallbackClassify (preprocessInput "email team") ≠ [] :=
  ⟨by decide, by decide,
   (c2_amended .soft envAll "fc_1" 0 st0 "email team" "U" "DM" (by decide)
      (by decide)).2.1⟩

/-- C5 counterexample: for a payload longer than the input the Classifier's
output is longer than the deterministic parser's output and its extra
element carries the payload's own `explicit_minutes`/`duration_bucket`
verbatim — the per-task duration agreement with the deterministic output
fails. -/
theorem c5_counterexample :
    classifyStep preOne (.ok respLong)
        = .ok (fixedAndValidate preOne respLong) ∧
    (fixedAndValidate preOne respLong).length ≠ preOne.length ∧
    ((fixedAndValidate preOne respLong)[1]?).map
        (fun t => (t.explicit_minutes, t.duration_bucket))
      = some (some (.int 999), some .twoMin) := by
  refine ⟨rfl, by decide, by decide⟩

/-- C5 amended: whenever the classification stage returns a task list
(fallback or parsed payload of any length), every output index that also
exists in the deterministic (preprocessed) input keeps that input's
`explicit_minutes` and `duration_bucket` unchanged; only indices beyond
the input's length (possible for an over-long payload) escape the
invariant. -/
theorem c5_amended (pre : List ParsedTask) (outcome : ClaudeOutcome)
    (out : List ParsedTask) (hout : classifyStep pre outcome = .ok out)
    (i : Nat) (h1 : i < pre.length) (h2 : i < out.length) :
    (out.get ⟨i, h2⟩).explicit_minutes
        = (pre.get ⟨i, h1⟩).explicit_minutes ∧
    (out.get ⟨i, h2⟩).duration_bucket
        = (pre.get ⟨i, h1⟩).duration_bucket := by
  cases outcome with
  | throws => simp [classifyStep] at hout
  | nonParse =>
    simp only [classifyStep, Except.ok.injEq] at hout
    subst hout
    simp [fallbackClassify, List.get_eq_getElem, List.getElem_map]
  | ok resp =>
    simp only [classifyStep, Except.ok.injEq] at hout
    subst hout
    have h2' : i < resp.length := by
      simpa [fixedAndValidate] using h2
    simp only [fixedAndValidate]
    rw [List.get_mapIdx resp _ i h2']
    rw [List.getElem?_eq_getElem h1]
    simp

/-- C5 amended, witnessed at index 0 of the over-long payload fixture. -/
theorem c5_amended_witness :
    ((fixedAndValidate preOne respLong).get ⟨0, by decide⟩).explicit_minutes
        = (preOne.get ⟨0, by decide⟩).explicit_minutes ∧
    ((fixedAndValidate preOne respLong).get ⟨0, by decide⟩).duration_bucket
        = (preOne.get ⟨0, by decide⟩).duration_bucket :=
  c5_amended preOne (.ok respLong) (fixedAndValidate preOne respLong) rfl 0
    (by decide) (by decide)

/-- C9: a ConversationContext read strictly more than 30 minutes
(1,800,000 ms) after the consulted entry's last update returns absent and
deletes the entry from both the cache and the database as a side effect of
the read; a read at most 30 minutes after the last update returns the
stored entry unchanged and leaves the database untouched. -/
theorem c9_context_ttl (st : St) (u ch : String) (now : Nat)
    (ts : ThreadState) (hentry : threadEntry st u ch = some ts) :
    (((now : Int) - (ts.updatedAt : Int) > (EXPIRY_MS : Int)) →
      (getThreadState now st u ch).2 = none ∧
      lookupTsCache (getThreadState now st u ch).1 (getThreadKey u ch) = none ∧
      lookupTsDb (getThreadState now st u ch).1 u ch = none) ∧
    (((now : Int) - (ts.updatedAt : Int) ≤ (EXPIRY_MS : Int)) →
      (getThreadState now st u ch).2 = some ts ∧
      (getThreadState now st u ch).1.tsDb = st.tsDb) := by
  have hcacheClear : lookupTsCache (clearThreadState st u ch)
      (getThreadKey u ch) = none := by
    have : List.find? (fun p => decide (p.1 = getThreadKey u ch))
        (List.filter (fun p => decide (p.1 ≠ getThreadKey u ch))
          st.tsCache) = none := by
      rw [List.find?_eq_none]
      intro p hp
      simp only [List.mem_filter, decide_not] at hp
      simpa using hp.2
    simp only [lookupTsCache, clearThreadState, this]
    rfl
  have hdbClear : lookupTsDb (clearThreadState st u ch) u ch = none := by
    simp only [lookupTsDb, clearThreadState]
    rw [List.find?_eq_none]
    intro r hr
    simp only [List.mem_filter] at hr
    intro hcontra
    rcases hr with ⟨_, hnot⟩
    rw [hcontra] at hnot
    cases hnot
  unfold threadEntry at hentry
  unfold getThreadState
  cases hc : lookupTsCache st (getThreadKey u ch) with
  | some cached =>
    rw [hc] at hentry
    simp only [Option.some.injEq] at hentry
    subst hentry
    simp only [hc]
    constructor
    · intro hexp
      rw [if_pos hexp]
      exact ⟨rfl, hcacheClear, hdbClear⟩
    · intro hfresh
      rw [if_neg (by omega)]
      exact ⟨rfl, rfl⟩
  | none =>
    rw [hc] at hentry
    cases hdb : lookupTsDb st u ch with
    | some row =>
      rw [hdb] at hentry
      simp only [Option.some.injEq] at hentry
      subst hentry
      simp only [hc, hdb]
      constructor
      · intro hexp
        rw [if_pos hexp]
        exact ⟨rfl, hcacheClear, hdbClear⟩
      · intro hfresh
        rw [if_neg (by omega)]
        exact ⟨rfl, rfl⟩
    | none => rw [hdb] at hentry; cases hentry

/-- C9, witnessed by a read 1,800,001 ms (just over 30 minutes) after the
entry's last update: the read returns absent and both the cache and the
database row are gone. -/
theorem c9_context_ttl_witness :
    threadEntry stTs "U" "DM" = some tsEnt ∧
    ((1800001 : Int) - (tsEnt.updatedAt : Int) > (EXPIRY_MS : Int)) ∧
    ((getThreadState 1800001 stTs "U" "DM").2 = none ∧
     lookupTsCache (getThreadState 1800001 stTs "U" "DM").1
       (getThreadKey "U" "DM") = none ∧
     lookupTsDb (getThreadState 1800001 stTs "U" "DM").1 "U" "DM" = none) :=
  ⟨by decide, by decide,
   (c9_context_ttl stTs "U" "DM" 1800001 tsEnt (by decide)).1 (by decide)⟩

/-- Helper: `updateSession` preserves every field of every row except
status, created_task_ids and updated_at. -/
theorem updateSession_frame (now : Nat) (st : St) (sid : String)
    (stat : Status) (ids : Option (List String)) :
    List.Forall₂ framePres st.sessions
      (updateSession now st sid stat ids).sessions := by
  simp only [updateSession]
  rw [List.forall₂_map_right_iff]
  rw [List.forall₂_same]
  intro r _
  by_cases h : r.id = sid <;>
    simp [framePres, h]

/-- C10: the breakdown operation never persists the generated subtasks:
whatever the external breakdown call returns, the stored session rows keep
their `parsed_json` (and id, user, input text, creation time) unchanged —
the session update performed by breakdown writes only status,
created_task_ids and updated_at — and the idempotency ledger is untouched,
so a subsequent accept still draws on the original task list. -/
theorem c10_breakdown_frame (bd : Option ParsedTask) (now : Nat) (st : St)
    (taskRef u : String) :
    List.Forall₂ framePres st.sessions
      (breakdown bd now st taskRef u).1.sessions ∧
    (breakdown bd now st taskRef u).1.ledger = st.ledger := by
  have hrefl : List.Forall₂ framePres st.sessions st.sessions := by
    rw [List.forall₂_same]
    intro r _
    exact ⟨rfl, rfl, rfl, rfl, rfl⟩
  unfold breakdown
  split
  · exact ⟨hrefl, rfl⟩
  · split
    · exact ⟨hrefl, rfl⟩
    · split
      · exact ⟨hrefl, rfl⟩
      · split
        · exact ⟨hrefl, rfl⟩
        · exact ⟨updateSession_frame _ _ _ _ _, rfl⟩

/-- C3 evaluated at the failing input (session of tasks "a","b" where the
service deterministically fails for "b"): the call reports exactly "b" as
failed, but a ledger row is written for the FAILED task "b" as well, so a
second accept finds every task already recorded and attempts nothing —
the previously-failed task is never retried. -/
theorem c3_ledger_written_for_failed :
    (accept envFailB 1 stT "U" (some "s1")).2.1
        = .done 1 [taskB.toTaskRec] ∧
    isTaskAlreadyCreated (accept envFailB 1 stT "U" (some "s1")).1 "s1" taskB
        = true ∧
    (accept envFailB 2 (accept envFailB 1 stT "U" (some "s1")).1 "U"
        (some "s1")).2 = (.allAlready, []) := by
  decide

/-- C4 evaluated at the failing input: with the service reachable and task
"b" failing, accept still sets the session status to PUSHED instead of
leaving it PENDING. -/
theorem c4_pushed_despite_failure :
    (accept envFailB 1 stT "U" (some "s1")).2.1
        = .done 1 [taskB.toTaskRec] ∧
    (accept envFailB 1 stT "U" (some "s1")).1.sessions.map (fun r => r.status)
        = [Status.pushed] := by
  decide

/-- C6 counterexample: accept invoked with the explicit session id of a
DISCARDED session performs external creations (two POSTs) and sets that
session's status to PUSHED — the session-id path never checks the status. -/
theorem c6_counterexample :
    sessD.status = .discarded ∧
    (accept envAll 5 stD "U" (some "s1")).1.sessions.map (fun r => r.status)
        = [Status.pushed] ∧
    (accept envAll 5 stD "U" (some "s1")).2.2 ≠ [] := by
  decide

/-- Helper: a session returned by `getLastPendingSession` is a stored row
of that user with status PENDING. -/
theorem lastPending_mem_pending (st : St) (u : String) (s : SessionRow)
    (h : getLastPendingSession st u = some s) :
    s ∈ st.sessions ∧ s.status = .pending ∧ s.userId = u := by
  unfold getLastPendingSession at h
  have key : ∀ (l : List SessionRow) (acc : Option SessionRow),
      l.foldl (fun acc r =>
        match acc with
        | none => some r
        | some b => if r.updatedAt > b.updatedAt then some r else some b)
        acc = some s →
      acc = some s ∨ s ∈ l := by
    intro l
    induction l with
    | nil => intro acc h; exact Or.inl h
    | cons r rest ih =>
      intro acc h
      simp only [List.foldl_cons] at h
      rcases ih _ h with h2 | h2
      · cases acc with
        | none =>
          simp only [Option.some.injEq] at h2
          exact Or.inr (by simp [h2])
        | some b =>
          simp only [] at h2
          split at h2
          · simp only [Option.some.injEq] at h2
            exact Or.inr (by simp [h2])
          · exact Or.inl h2
      · exact Or.inr (List.mem_cons_of_mem _ h2)
  rcases key _ _ h with h2 | h2
  · cases h2
  · have hmem := List.mem_filter.1 h2
    have hp := of_decide_eq_true hmem.2
    exact ⟨hmem.1, hp.2, hp.1⟩

/-- Helper: a row whose id differs from the updated one is untouched by
`updateSession` (for any state sharing the same session list). -/
theorem mem_updateSession_of_ne (now : Nat) (stX : St) (sid : String)
    (stat : Status) (ids : Option (List String)) (r : SessionRow)
    (hr : r ∈ stX.sessions) (hne : r.id ≠ sid) :
    r ∈ (updateSession now stX sid stat ids).sessions := by
  simp only [updateSession]
  exact List.mem_map.2 ⟨r, hr, by simp [hne]⟩

/-- Helper: distinct stored statuses force distinct session ids when the
id column is duplicate-free. -/
theorem id_ne_of_status_ne (st : St)
    (hnodup : (st.sessions.map (fun r => r.id)).Nodup)
    (r p : SessionRow) (hr : r ∈ st.sessions) (hp : p ∈ st.sessions)
    (hst : r.status ≠ p.status) : r.id ≠ p.id := by
  intro heq
  exact hst (congrArg SessionRow.status
    (List.inj_on_of_nodup_map hnodup hr hp heq))

/-- Helper: recording ledger rows never touches the session table. -/
theorem recordTaskCreated_sessions (now : Nat) (st : St) (sid : String)
    (t : ParsedTask) (tid : Option String) :
    (recordTaskCreated now st sid t tid).sessions = st.sessions := rfl

/-- Helper: the ledger-recording fold of `accept` never touches the
session table. -/
theorem foldl_record_sessions (now : Nat) (sid : String)
    (f : ParsedTask → Option String) :
    ∀ (l : List ParsedTask) (stX : St),
      (l.foldl (fun acc t => recordTaskCreated now acc sid t (f t))
        stX).sessions = stX.sessions := by
  intro l
  induction l with
  | nil => intro stX; rfl
  | cons t rest ih =>
    intro stX
    simp only [List.foldl_cons]
    rw [ih]
    rfl

/-- Helper: thread-state reads only touch the thread-state components. -/
theorem getThreadState_sessions (now : Nat) (st : St) (u ch : String) :
    (getThreadState now st u ch).1.sessions = st.sessions ∧
    (getThreadState now st u ch).1.ledger = st.ledger := by
  unfold getThreadState
  cases hc : lookupTsCache st (getThreadKey u ch) with
  | some cached =>
    simp only [hc]
    by_cases hexp : (now : Int) - (cached.updatedAt : Int) > (EXPIRY_MS : Int)
    · rw [if_pos hexp]; exact ⟨rfl, rfl⟩
    · rw [if_neg hexp]; exact ⟨rfl, rfl⟩
  | none =>
    simp only [hc]
    cases hd : lookupTsDb st u ch with
    | some row =>
      simp only [hd]
      by_cases hexp : (now : Int) - (row.updatedAt : Int) > (EXPIRY_MS : Int)
      · rw [if_pos hexp]; exact ⟨rfl, rfl⟩
      · rw [if_neg hexp]; exact ⟨rfl, rfl⟩
    | none => simp [hd]

/-- Helper: thread-state writes only touch the thread-state components. -/
theorem updateThreadState_sessions (now : Nat) (st : St) (u ch : String)
    (upd : TSUpdate) :
    (updateThreadState now st u ch upd).sessions = st.sessions ∧
    (updateThreadState now st u ch upd).ledger = st.ledger := by
  unfold updateThreadState
  simp only [setTsDb, setTsCache]
  exact ⟨(getThreadState_sessions now st u ch).1,
         (getThreadState_sessions now st u ch).2⟩

/-- Helper: the last-created-task time-correction handler never touches the
session table. -/
theorem updateLastTaskTime_sessions (updOk : Bool) (now : Nat) (st : St)
    (timeText u ch : String) :
    (updateLastTaskTime updOk now st timeText u ch).1.sessions
      = st.sessions := by
  have hgs := (getThreadState_sessions now st u ch).1
  unfold updateLastTaskTime
  cases hg : getThreadState now st u ch with
  | mk st1 tsOpt =>
    rw [hg] at hgs
    simp only [hg]
    cases tsOpt with
    | none => exact hgs
    | some ts =>
      split
      · exact hgs
      · split
        · exact hgs
        · split
          · exact hgs
          · split
            · rw [(updateThreadState_sessions now st1 u ch _).1]
              exact hgs
            · exact hgs

/-- C6 amended: every operation that resolves its session through the
last-PENDING-session lookup — accept without an explicit id, discard,
breakdown, and both time-correction handlers — leaves every PUSHED or
DISCARDED session row untouched (assuming the session-id column is
duplicate-free, as the primary key guarantees). The exception the
counterexample exhibits remains: accept invoked with an explicit session
id never checks the status and will push a DISCARDED session. -/
theorem c6_amended (env : TodoistEnv) (bd : Option ParsedTask)
    (updOk : Bool) (now : Nat) (st : St) (u ch timeText taskRef : String)
    (hnodup : (st.sessions.map (fun r => r.id)).Nodup)
    (r : SessionRow) (hr : r ∈ st.sessions)
    (hstat : r.status = .pushed ∨ r.status = .discarded) :
    r ∈ (accept env now st u none).1.sessions ∧
    r ∈ (discard now st u).1.sessions ∧
    r ∈ (breakdown bd now st taskRef u).1.sessions ∧
    r ∈ (updateTimeEstimate env now st timeText u ch).1.sessions ∧
    r ∈ (updateLastTaskTime updOk now st timeText u ch).1.sessions := by
  have hidne : ∀ session : SessionRow,
      getLastPendingSession st u = some session → r.id ≠ session.id := by
    intro session hs
    obtain ⟨hmem, hpend, _⟩ := lastPending_mem_pending st u session hs
    refine id_ne_of_status_ne st hnodup r session hr hmem ?_
    rcases hstat with h | h <;> rw [h, hpend] <;> intro hcontra <;>
      cases hcontra
  refine ⟨?_, ?_, ?_, ?_, ?_⟩
  · -- accept without an explicit session id
    unfold accept
    cases hs : getLastPendingSession st u with
    | none => simpa [hs] using hr
    | some session =>
      simp only [hs]
      split
      · exact hr
      · split
        · exact mem_updateSession_of_ne now st session.id .pending none r hr
            (hidne session hs)
        · refine mem_updateSession_of_ne now _ session.id .pushed _ r ?_
            (hidne session hs)
          rw [foldl_record_sessions]
          exact hr
  · -- discard
    unfold discard
    cases hs : getLastPendingSession st u with
    | none => simpa [hs] using hr
    | some session =>
      simp only [hs]
      exact mem_updateSession_of_ne now st session.id .discarded none r hr
        (hidne session hs)
  · -- breakdown
    unfold breakdown
    cases hs : getLastPendingSession st u with
    | none => simpa [hs] using hr
    | some session =>
      simp only [hs]
      split
      · exact hr
      · split
        · exact hr
        · split
          · exact hr
          · exact mem_updateSession_of_ne now st session.id .pending none r
              hr (hidne session hs)
  · -- updateTimeEstimate
    unfold updateTimeEstimate
    cases hs : getLastPendingSession st u with
    | none => simpa [hs] using hr
    | some session =>
      simp only [hs]
      split
      · exact hr
      · split
        · exact hr
        · split
          · rw [(updateThreadState_sessions now _ u ch _).1]
            exact mem_updateSession_of_ne now st session.id .accepted _ r hr
              (hidne session hs)
          · exact hr
  · -- updateLastTaskTime
    rw [updateLastTaskTime_sessions]
    exact hr

/-- C6 amended, witnessed by a discard call against the state holding only
a DISCARDED session. -/
theorem c6_amended_witness :
    (stD.sessions.map (fun r => r.id)).Nodup ∧
    sessD ∈ stD.sessions ∧
    (sessD.status = .pushed ∨ sessD.status = .discarded) ∧
    sessD ∈ (discard 7 stD "U").1.sessions :=
  ⟨by decide, by decide, Or.inr rfl,
   (c6_amended envAll none true 7 stD "U" "DM" "5 mins" "#1" (by decide)
      sessD (by decide) (Or.inr rfl)).2.1⟩

/-- Helper: a ledger membership survives any later `recordTaskCreated`
(`INSERT OR REPLACE` only replaces the same composite key, whose
replacement also matches). -/
theorem isTask_mono_record (now : Nat) (st : St) (sid sidB : String)
    (t tB : ParsedTask) (tid : Option String)
    (h : isTaskAlreadyCreated st sid t = true) :
    isTaskAlreadyCreated (recordTaskCreated now st sidB tB tid) sid t
      = true := by
  unfold isTaskAlreadyCreated at h ⊢
  unfold recordTaskCreated
  rw [List.any_eq_true] at h ⊢
  obtain ⟨row, hrow, hp⟩ := h
  have hp' := of_decide_eq_true hp
  by_cases hkey : row.sessionId = sidB ∧
      row.titleHash = generateTaskHash tB sidB
  · refine ⟨_, List.mem_cons_self _ _, ?_⟩
    refine decide_eq_true ?_
    exact ⟨by rw [← hkey.1, hp'.1], by rw [← hkey.2, hp'.2]⟩
  · refine ⟨row, List.mem_cons_of_mem _ (List.mem_filter.2 ⟨hrow, ?_⟩), hp⟩
    rw [decide_eq_false hkey]
    rfl

/-- Helper: `recordTaskCreated` makes its own key present. -/
theorem isTask_record_self (now : Nat) (st : St) (sid : String)
    (t : ParsedTask) (tid : Option String) :
    isTaskAlreadyCreated (recordTaskCreated now st sid t tid) sid t
      = true := by
  unfold isTaskAlreadyCreated recordTaskCreated
  rw [List.any_eq_true]
  exact ⟨_, List.mem_cons_self _ _, decide_eq_true ⟨rfl, rfl⟩⟩

/-- Helper: the recording fold of `accept` preserves ledger membership. -/
theorem foldl_record_mono (now : Nat) (sid : String)
    (f : ParsedTask → Option String) :
    ∀ (l : List ParsedTask) (stX : St) (sid0 : String) (t : ParsedTask),
      isTaskAlreadyCreated stX sid0 t = true →
      isTaskAlreadyCreated
        (l.foldl (fun acc x => recordTaskCreated now acc sid x (f x)) stX)
        sid0 t = true := by
  intro l
  induction l with
  | nil => intro stX sid0 t h; exact h
  | cons x rest ih =>
    intro stX sid0 t h
    simp only [List.foldl_cons]
    exact ih _ _ _ (isTask_mono_record now stX sid0 sid t x (f x) h)

/-- Helper: after the recording fold of `accept`, every task of the folded
list is in the ledger. -/
theorem foldl_record_all (now : Nat) (sid : String)
    (f : ParsedTask → Option String) :
    ∀ (l : List ParsedTask) (stX : St) (t : ParsedTask), t ∈ l →
      isTaskAlreadyCreated
        (l.foldl (fun acc x => recordTaskCreated now acc sid x (f x)) stX)
        sid t = true := by
  intro l
  induction l with
  | nil => intro stX t h; cases h
  | cons x rest ih =>
    intro stX t h
    simp only [List.foldl_cons]
    rcases List.mem_cons.1 h with rfl | hmem
    · exact foldl_record_mono now sid f rest _ sid t
        (isTask_record_self now stX sid t (f t))
    · exact ih _ _ hmem

/-- Helper: session lookup depends only on the session list. -/
theorem getSession_congr (st stB : St) (sid : String)
    (h : st.sessions = stB.sessions) :
    getSession st sid = getSession stB sid := by
  unfold getSession
  rw [h]

/-- Helper: ledger membership depends only on the ledger. -/
theorem isTask_congr (st stB : St) (sid : String) (t : ParsedTask)
    (h : st.ledger = stB.ledger) :
    isTaskAlreadyCreated st sid t = isTaskAlreadyCreated stB sid t := by
  unfold isTaskAlreadyCreated
  rw [h]

/-- Helper: `updateSession` rewrites the looked-up row pointwise. -/
theorem getSession_updateSession (now : Nat) (st : St) (sid : String)
    (stat : Status) (ids : Option (List String)) (sidQ : String) :
    getSession (updateSession now st sid stat ids) sidQ =
      (getSession st sidQ).map (fun r =>
        if r.id = sid then
          { r with status := stat, createdTaskIds := ids, updatedAt := now }
        else r) := by
  unfold getSession updateSession
  simp only [List.find?_map]
  have hpred : ((fun r : SessionRow => decide (r.id = sidQ)) ∘ fun r =>
      if r.id = sid then
        { r with status := stat, createdTaskIds := ids, updatedAt := now }
      else r) = fun r : SessionRow => decide (r.id = sidQ) := by
    funext r
    by_cases h : r.id = sid <;> simp [h]
  rw [hpred]

/-- Helper: a session found by id has that id. -/
theorem getSession_id (st : St) (sid : String) (s : SessionRow)
    (h : getSession st sid = some s) : s.id = sid := by
  unfold getSession at h
  have := List.find?_some h
  exact of_decide_eq_true this

/-- Helper: `accept` returns "all already created", attempts nothing and
leaves the state unchanged when every task of the session is ledgered. -/
theorem accept_allLedgered (env : TodoistEnv) (now : Nat) (st : St)
    (u sid : String) (s : SessionRow)
    (hget : getSession st sid = some s)
    (hall : ∀ t ∈ s.parsed, isTaskAlreadyCreated st s.id t = true) :
    accept env now st u (some sid) = (st, .allAlready, []) := by
  unfold accept
  simp only [hget]
  have hfilter : s.parsed.filter
      (fun t => !isTaskAlreadyCreated st s.id t) = [] := by
    rw [List.filter_eq_nil_iff]
    intro t ht
    rw [hall t ht]
    simp
  rw [hfilter]
  rfl

/-- Helper postcondition of a non-offline `accept` by explicit id: the
session row survives (id and task list unchanged) and EVERY task of the
session ends up in the idempotency ledger. -/
theorem accept_covers (env : TodoistEnv) (now : Nat) (st : St)
    (u sid : String) (s : SessionRow) (hget : getSession st sid = some s)
    (hoff : env.offline = false) :
    ∃ s2, getSession (accept env now st u (some sid)).1 sid = some s2 ∧
      s2.parsed = s.parsed ∧ s2.id = s.id ∧
      (∀ t ∈ s.parsed,
        isTaskAlreadyCreated (accept env now st u (some sid)).1 s.id t
          = true) := by
  have hsid : s.id = sid := getSession_id st sid s hget
  unfold accept
  simp only [hget]
  by_cases hT : s.parsed.filter
      (fun t => !isTaskAlreadyCreated st s.id t) = []
  · rw [hT]
    refine ⟨s, hget, rfl, rfl, ?_⟩
    intro t ht
    have := List.filter_eq_nil_iff.1 hT t ht
    simpa using this
  · have hie : (s.parsed.filter
        (fun t => !isTaskAlreadyCreated st s.id t)).isEmpty = false := by
      simpa [List.isEmpty_iff] using hT
    rw [hie]
    have hro : (createTasks env (s.parsed.filter
        (fun t => !isTaskAlreadyCreated st s.id t))).offline = false := by
      simp [createTasks, hoff]
    simp only [Bool.false_eq_true, if_false, hro]
    set T := s.parsed.filter (fun t => !isTaskAlreadyCreated st s.id t)
      with hTdef
    set result := createTasks env T with hres
    set stF := T.foldl (fun acc t =>
      recordTaskCreated now acc s.id t ((result.created.find? (fun td =>
        containsSub t.title td.content ||
        containsSub (stripContentTag td.content) t.title)).map
          (fun td => td.id))) st with hstF
    have hsessF : stF.sessions = st.sessions := by
      rw [hstF]
      exact foldl_record_sessions now s.id _ T st
    have hgetF : getSession stF sid = some s := by
      rw [getSession_congr stF st sid hsessF]
      exact hget
    refine ⟨{ s with status := .pushed, createdTaskIds := some (result.created.map (fun td => td.id)), updatedAt := now }, ?_, rfl, rfl, ?_⟩
    · rw [getSession_updateSession, hgetF]
      simp [hsid]
    · intro t ht
      have hled : (updateSession now stF s.id .pushed
          (some (result.created.map (fun td => td.id)))).ledger
            = stF.ledger := rfl
      rw [isTask_congr _ stF s.id t hled]
      by_cases hmem : isTaskAlreadyCreated st s.id t = true
      · rw [hstF]
        exact foldl_record_mono now s.id _ T st s.id t hmem
      · have htT : t ∈ T := by
          rw [hTdef]
          refine List.mem_filter.2 ⟨ht, ?_⟩
          simp only [Bool.not_eq_true] at hmem ⊢
          rw [Bool.eq_false_iff] at hmem
          simp [Bool.not_eq_true] at hmem
          rw [hmem]
          rfl
        rw [hstF]
        exact foldl_record_all now s.id _ T st t htT

/-- C1: with the task-tracking service reachable, calling accept twice in
sequence on the same session creates exactly the external tasks of the
first call: the second call finds every task of the session in the
idempotency ledger, issues no external creation POST at all (empty attempt
trace), reports "all already created" and leaves the state unchanged — so
no duplicate external task is created, for an arbitrary session and task
set. -/
theorem c1_idempotent_accept (env : TodoistEnv) (now1 now2 : Nat) (st : St)
    (u : String) (s : SessionRow) (hget : getSession st s.id = some s)
    (_hok : ∀ t, env.ok t = true) (hoff : env.offline = false) :
    accept env now2 (accept env now1 st u (some s.id)).1 u (some s.id)
      = ((accept env now1 st u (some s.id)).1, .allAlready, []) := by
  obtain ⟨s2, hget2, hparsed, hid2, hall⟩ :=
    accept_covers env now1 st u s.id s hget hoff
  refine accept_allLedgered env now2 _ u s.id s2 hget2 ?_
  intro t ht
  rw [hid2]
  exact hall t (hparsed ▸ ht)

/-- C1 witnessed on the two-task fixture session with an all-success
service. -/
theorem c1_idempotent_accept_witness :
    getSession stT "s1" = some sess1 ∧ envAll.offline = false ∧
    accept envAll 2 (accept envAll 1 stT "U" (some "s1")).1 "U" (some "s1")
      = ((accept envAll 1 stT "U" (some "s1")).1, .allAlready, []) := by
  refine ⟨by decide, rfl, ?_⟩
  have h := c1_idempotent_accept envAll 1 2 stT "U" sess1 (by decide)
    (fun t => rfl) rfl
  simpa using h
